import Mathlib

/-
Verification of the deadline-compliance correlation engine of the
`hackathon_bot` repository (`tracker/utils.py`).

The engine fetches open assigned issues and open pull requests from a
remote tracking service, reconstructs each issue's assignment from its
event timeline, computes elapsed days since assignment with
`dateutil.relativedelta`, and returns the issues whose assignee has no
open pull request and whose assignment is at least one day old.

The embedding has two levels.  The typed level models the upstream HTTP
responses as values of a `Fetch` type (a successful JSON payload already
decoded into the structured shape the code reads, or one of the transport
failures that `requests` raises as a `RequestException`); it underlies the
claims about behaviour on fetched data.  The JSON level re-translates the
same functions over raw decoded JSON values (`JValue`, `JFetch`,
`jget_issues_without_pull_requests`), making explicit the uncaught
`AttributeError`/`TypeError` that Python raises on unexpected body shapes;
it underlies the safety claim about arbitrary upstream content, and the
typed level is its restriction to well-shaped payloads.  Timestamp
strings are parsed
by a model of `datetime.strptime` with the fixed-width format
`%Y-%m-%dT%H:%M:%SZ` used by the tracking service; a string that does not
parse raises `ValueError`, which no handler in the engine catches, so the
fallible operations return `Except PyError`.  Dictionary mutation in the
Python source becomes functional record update: derived keys that the
code adds to an issue dictionary are `Option`-valued fields that start
out absent (`none`).
-/

namespace Tracker

/-! ## Calendar arithmetic (model of `datetime` and `dateutil.relativedelta`) -/

/-- A naive `datetime.datetime` value: year, month, day, hour, minute, second.
Python restricts `year` to 1..9999; the structure itself does not enforce
validity (arbitrary values can be supplied as the "current time"), and the
parser `strptime` below only ever produces valid dates. -/
structure DateTime where
  year : Int
  month : Nat
  day : Nat
  hour : Nat
  minute : Nat
  second : Nat
deriving DecidableEq, Repr

/-- Leap year in the proleptic Gregorian calendar, as `calendar.isleap`. -/
def isLeap (y : Int) : Bool :=
  y % 4 == 0 && (y % 100 != 0 || y % 400 == 0)

/-- `calendar.monthrange(y, m)[1]`: number of days in the month.  Every call
site passes a month in 1..12 (the parser validates it and
`relativedelta.__radd__` normalises it); the final catch-all arm is
unreachable in the engine. -/
def daysInMonth (y : Int) (m : Nat) : Nat :=
  if m = 2 then (if isLeap y then 29 else 28)
  else if m = 4 ∨ m = 6 ∨ m = 9 ∨ m = 11 then 30
  else 31

/-- Days from the civil epoch 1970-01-01 (Howard Hinnant's `days_from_civil`
algorithm), matching the day ordinals that `datetime.date.toordinal` uses for
subtraction. -/
def toDays (dt : DateTime) : Int :=
  let y : Int := if (dt.month : Int) ≤ 2 then dt.year - 1 else dt.year
  let era : Int := y.fdiv 400
  let yoe : Int := y - era * 400
  let mp : Int := ((dt.month : Int) + 9).fmod 12
  let doy : Int := (153 * mp + 2).fdiv 5 + (dt.day : Int) - 1
  let doe : Int := yoe * 365 + yoe.fdiv 4 - yoe.fdiv 100 + doy
  era * 146097 + doe - 719468

/-- Total seconds from the epoch; `a - b` on datetimes produces the
`timedelta` with this many seconds of difference. -/
def toSeconds (dt : DateTime) : Int :=
  toDays dt * 86400 + (dt.hour : Int) * 3600 + (dt.minute : Int) * 60 + (dt.second : Int)

/-- Python's `datetime < datetime`: lexicographic field comparison. -/
def dtLt (a b : DateTime) : Bool :=
  a.year < b.year || (a.year == b.year &&
    (a.month < b.month || (a.month == b.month &&
      (a.day < b.day || (a.day == b.day &&
        (a.hour < b.hour || (a.hour == b.hour &&
          (a.minute < b.minute || (a.minute == b.minute &&
            a.second < b.second)))))))))

/-- `dt + relativedelta(months=n)`: `relativedelta._set_months` splits `n`
into whole years and a residual in -11..11 with the sign of `n`
(truncating division), and `relativedelta.__radd__` then adds the years,
adds the residual months with a single overflow adjustment, and clamps the
day to the length of the resulting month. -/
def addMonths (dt : DateTime) (months : Int) : DateTime :=
  let s : Int := if months < 0 then -1 else 1
  let years : Int := ((months * s).fdiv 12) * s
  let monthsR : Int := ((months * s).fmod 12) * s
  let year : Int := dt.year + years
  let pair : Int × Int :=
    if monthsR = 0 then (year, (dt.month : Int))
    else
      let m : Int := (dt.month : Int) + monthsR
      if 12 < m then (year + 1, m - 12)
      else if m < 1 then (year - 1, m + 12)
      else (year, m)
  let monthN : Nat := pair.2.toNat
  { dt with year := pair.1, month := monthN,
            day := min (daysInMonth pair.1 monthN) dt.day }

/-- The month-adjustment loop of `relativedelta.__init__`: while the
month-shifted `dt2` still lies strictly on the wrong side of `dt1`, move by
one more month.  For valid datetimes the loop body runs at most once; the
fuel bounds the iteration count without changing any reachable result. -/
def rdAdjust (fuel : Nat) (dt1 dt2 : DateTime) (months incr : Int)
    (cmp : DateTime → DateTime → Bool) : Int :=
  match fuel with
  | 0 => months
  | Nat.succ fuel =>
    if cmp dt1 (addMonths dt2 months) then
      rdAdjust fuel dt1 dt2 (months + incr) incr cmp
    else months

/-- The part of a `relativedelta(dt1, dt2)` value the engine observes: the
total signed month count, and the remaining difference in seconds between
`dt1` and `dt2` shifted by that many months. -/
structure Relativedelta where
  months : Int
  totalSeconds : Int
deriving DecidableEq, Repr

/-- `relativedelta(dt1, dt2)`: month difference from the year and month
fields, corrected by the adjustment loop (increment when `dt1 < dt2`,
decrement otherwise), then the leftover seconds `dt1 - (dt2 + months)`. -/
def relativedeltaOf (dt1 dt2 : DateTime) : Relativedelta :=
  let months0 : Int := (dt1.year - dt2.year) * 12 + ((dt1.month : Int) - (dt2.month : Int))
  let months : Int :=
    if dtLt dt1 dt2 then rdAdjust 120000 dt1 dt2 months0 1 (fun a b => dtLt b a)
    else rdAdjust 120000 dt1 dt2 months0 (-1) dtLt
  let dtm : DateTime := addMonths dt2 months
  ⟨months, toSeconds dt1 - toSeconds dtm⟩

/-- `relativedelta._fix` normalises the seconds into
days/hours/minutes/seconds with a common sign, so the `days` attribute is
the whole-day part of the leftover seconds, carrying the sign. -/
def Relativedelta.days (rd : Relativedelta) : Int :=
  ((rd.totalSeconds.natAbs / 86400 : Nat) : Int) * rd.totalSeconds.sign

/-- Python truthiness of a `relativedelta`: false exactly when every
component is zero. -/
def Relativedelta.isTruthy (rd : Relativedelta) : Bool :=
  rd.months != 0 || rd.totalSeconds != 0

/-! ## `datetime.strptime` with format `%Y-%m-%dT%H:%M:%SZ` -/

/-- Decimal digit value of a character, `none` for a non-digit. -/
def digit (c : Char) : Option Nat :=
  if c.isDigit then some (c.toNat - 48) else none

/-- Two-digit decimal field. -/
def twoDigits (a b : Char) : Option Nat :=
  match digit a, digit b with
  | some x, some y => some (10 * x + y)
  | _, _ => none

/-- Four-digit decimal field. -/
def fourDigits (a b c d : Char) : Option Nat :=
  match digit a, digit b, digit c, digit d with
  | some x, some y, some z, some w => some (1000 * x + 100 * y + 10 * z + w)
  | _, _, _, _ => none

/-- The range validation `datetime.datetime` and the `strptime` field
patterns perform: year 1..9999, month 1..12, day within the month, hour
0..23, minute and second 0..59.  Out-of-range fields raise `ValueError`,
modelled as `none`. -/
def mkValidDateTime (year month day hour minute second : Nat) : Option DateTime :=
  if 1 ≤ year ∧ year ≤ 9999 ∧ 1 ≤ month ∧ month ≤ 12 ∧
     1 ≤ day ∧ day ≤ daysInMonth (year : Int) month ∧
     hour ≤ 23 ∧ minute ≤ 59 ∧ second ≤ 59
  then some ⟨(year : Int), month, day, hour, minute, second⟩ else none

/-- `datetime.strptime(s, "%Y-%m-%dT%H:%M:%SZ")`, modelled for the
fixed-width ISO-8601 form the tracking service emits (`2024-01-31T12:00:00Z`):
any string not of that shape fails to parse and raises `ValueError` in
Python, modelled as `none`. -/
def strptime (str : String) : Option DateTime :=
  match str.data with
  | [y1, y2, y3, y4, h1, m1, m2, h2, d1, d2, tc, a1, a2, k1, b1, b2, k2, c1, c2, zc] =>
    if h1 = '-' ∧ h2 = '-' ∧ tc = 'T' ∧ k1 = ':' ∧ k2 = ':' ∧ zc = 'Z' then
      match fourDigits y1 y2 y3 y4, twoDigits m1 m2, twoDigits d1 d2,
            twoDigits a1 a2, twoDigits b1 b2, twoDigits c1 c2 with
      | some yr, some mo, some da, some hh, some mm, some ss =>
          mkValidDateTime yr mo da hh mm ss
      | _, _, _, _, _, _ => none
    else none
  | _ => none

/-! ## Data model of the upstream JSON payloads -/

/-- The exceptions that can escape the engine.  The fetch boundaries catch
`requests.exceptions.RequestException`; the only uncaught exception class
reachable in the modelled code is `ValueError` from `datetime.strptime`. -/
inductive PyError where
  | valueError (msg : String)
deriving DecidableEq, Repr

/-- Outcome of one HTTP fetch (`requests.get` + `raise_for_status` +
`.json()`).  The failure constructors are the transport failures of the
specification; each is raised as a subclass of
`requests.exceptions.RequestException` (in `requests` ≥ 2.27 a malformed
body raises `requests.exceptions.JSONDecodeError`, also a
`RequestException`), so every failure arm is caught by the fetchers'
`except` clauses.  The `ok` payload is typed: behaviour on bodies outside
these shapes is modelled by the JSON level below. -/
inductive Fetch (α : Type) where
  | ok (value : α)
  | timeout
  | connectionRefused
  | httpStatus (status : Nat)
  | malformedJson
deriving DecidableEq, Repr

/-- Whether the fetch outcome is one of the transport failures. -/
def Fetch.isFailure {α : Type} : Fetch α → Bool
  | .ok _ => false
  | _ => true

/-- The `"assignee"` sub-dictionary of an issue: `login` is `none` when the
key is absent. -/
structure Assignee where
  login : Option String
deriving DecidableEq, Repr

/-- The dictionary `check_issue_assignment_events` builds: both keys are
written together for every `"assigned"` event, so a non-empty result always
carries both. -/
structure AssignmentInfo where
  assignee : String
  assigned_at : String
deriving DecidableEq, Repr

/-- One entry of an issue's events payload, restricted to the keys the code
reads.  `kind` is the `"event"` field; `assigneeLogin` is the value of
`event["assignee"]["login"]` when both keys are present (`none` when either
is absent, in which case the chained `.get` defaults produce `""`).  A
present-but-`null` assignee, on which the chained `.get` raises, is outside
this type and is modelled at the JSON level below. -/
structure Event where
  kind : Option String
  assigneeLogin : Option String
  created_at : Option String
deriving DecidableEq, Repr

/-- An issue dictionary, restricted to the keys the engine reads, plus the
keys the engine adds.  `assignee = none` models a missing, `null`, or empty
(falsy) assignee value; `draft` and `pull_request` are the truthiness of
those keys.  The trailing three fields are the derived keys the code
writes: `none` means the key is absent. -/
structure Issue where
  title : String
  state : Option String
  assignee : Option Assignee
  draft : Bool
  pull_request : Bool
  events_url : String
  due_on : Option String
  assignment_info : Option (Option AssignmentInfo) := none
  days : Option Int := none
  assigned_days : Option Int := none
deriving DecidableEq, Repr

/-- A pull-request dictionary: the engine reads only
`pull_request["user"]["login"]`, `none` when either key is absent. -/
structure PullRequest where
  user_login : Option String
deriving DecidableEq, Repr

/-! ## Remote fetchers (`tracker/utils.py` lines 63-151) -/

/-- `check_issue_assignment_events`: fetch the issue's events, fold over
them keeping the assignee login and timestamp of each `"assigned"` event
(later ones overwrite earlier ones), and return the resulting dictionary;
any `RequestException` is logged and an empty dictionary (`none`) is
returned. -/
def check_issue_assignment_events (resp : Fetch (List Event)) : Option AssignmentInfo :=
  match resp with
  | .ok events =>
      events.foldl (fun acc event =>
        if event.kind == some ("assigned") then
          some ⟨event.assigneeLogin.getD (""), event.created_at.getD ("")⟩
        else acc) none
  | _ => none

/-- `get_all_open_and_assigned_issues`: fetch the issues payload and keep
the issues that are open, have a truthy assignee, are not drafts and are
not pull requests; any `RequestException` yields the empty list. -/
def get_all_open_and_assigned_issues (resp : Fetch (List Issue)) : List Issue :=
  match resp with
  | .ok issues =>
      issues.filter (fun issue =>
        issue.state == some ("open") && issue.assignee.isSome &&
        !issue.draft && !issue.pull_request)
  | _ => []

/-- `get_all_open_pull_requests`: fetch with `state=open` and return the
payload unchanged; any `RequestException` yields the empty list. -/
def get_all_open_pull_requests (resp : Fetch (List PullRequest)) : List PullRequest :=
  match resp with
  | .ok pull_requests => pull_requests
  | _ => []

/-! ## Compliance correlator (`tracker/utils.py` lines 154-198) -/

/-- The elapsed-days computation of the correlator's annotation loop:
`relativedelta(dt1=datetime.now(), dt2=strptime(assigned_at)).days` when
`assigned_at` is truthy (raising `ValueError` when it does not parse), and
`0` when the assignment dictionary is empty, lacks the key, or holds an
empty string; a falsy (all-zero) `relativedelta` also yields `0`. -/
def compute_days (now : DateTime) (info : Option AssignmentInfo) : Except PyError Int :=
  match info with
  | none => .ok 0
  | some ai =>
    if ai.assigned_at = "" then .ok 0
    else
      match strptime ai.assigned_at with
      | none => .error (.valueError ai.assigned_at)
      | some d =>
          let rd := relativedeltaOf now d
          .ok (if rd.isTruthy then rd.days else 0)

/-- One iteration of the correlator's first loop: store the reconstructed
assignment dictionary under `"assignment_info"` and the elapsed days under
`"days"`. -/
def annotate_issue (events : String → Fetch (List Event)) (now : DateTime)
    (issue : Issue) : Except PyError Issue :=
  let info := check_issue_assignment_events (events issue.events_url)
  match compute_days now info with
  | .error e => .error e
  | .ok d => .ok { issue with assignment_info := some info, days := some d }

/-- The correlator's first loop over the fetched issues; an uncaught
`ValueError` aborts the whole pass. -/
def annotate_issues (events : String → Fetch (List Event)) (now : DateTime) :
    List Issue → Except PyError (List Issue)
  | [] => .ok []
  | issue :: rest =>
    match annotate_issue events now issue with
    | .error e => .error e
    | .ok issue1 =>
      match annotate_issues events now rest with
      | .error e => .error e
      | .ok rest1 => .ok (issue1 :: rest1)

/-- The author list of the fetched open pull requests: each
`pull_request["user"]["login"]` that is present and truthy (non-empty). -/
def pull_requests_users (pull_requests : List PullRequest) : List String :=
  (pull_requests.filterMap (fun pull_request => pull_request.user_login)).filter
    (fun login => login ≠ "")

/-- The correlator's filter condition: `issue.get("days", 0) >= 1` and the
assignee login (possibly `None`) is not a member of the author list. -/
def nonCompliant (issue : Issue) (users : List String) : Bool :=
  decide (1 ≤ issue.days.getD 0) &&
    (match issue.assignee.bind (fun a => a.login) with
     | none => true
     | some login => !users.contains login)

/-- `get_issues_without_pull_requests`: fetch the open assigned issues,
annotate each with its assignment info and elapsed days, fetch the open
pull requests and their author logins, and return the annotated issues
whose elapsed days are at least 1 and whose assignee login is not among
the authors.  A `ValueError` from timestamp parsing escapes uncaught. -/
def get_issues_without_pull_requests (issuesResp : Fetch (List Issue))
    (events : String → Fetch (List Event)) (pullsResp : Fetch (List PullRequest))
    (now : DateTime) : Except PyError (List Issue) :=
  match annotate_issues events now (get_all_open_and_assigned_issues issuesResp) with
  | .error e => .error e
  | .ok issues =>
    let users := pull_requests_users (get_all_open_pull_requests pullsResp)
    .ok (issues.filter (fun issue => nonCompliant issue users))

/-! ## Deadline arithmetic (`tracker/utils.py` lines 330-372) -/

/-- `get_time_before_deadline`: report "not assigned" without a truthy
reconstructed assignment timestamp, "no deadline" without a truthy
`due_on`; otherwise parse the deadline and the assignment time (either
parse failure raises `ValueError`), record
`relativedelta(now, assigned_time).days` under `"assigned_days"`, and
classify `time_left = deadline - now`: positive `timedelta.days` reports
days remaining, else positive `timedelta.seconds` (the non-negative
sub-day remainder) reports hours and minutes remaining, else the deadline
has passed.  Returns the message together with the (possibly updated)
issue. -/
def get_time_before_deadline (events : String → Fetch (List Event))
    (now : DateTime) (issue : Issue) : Except PyError (String × Issue) :=
  let info := check_issue_assignment_events (events issue.events_url)
  match info with
  | none => .ok ("This issue is not assigned.", issue)
  | some ai =>
    if ai.assigned_at = "" then .ok ("This issue is not assigned.", issue)
    else
      match issue.due_on with
      | none => .ok ("No deadline set for this issue.", issue)
      | some dls =>
        if dls = "" then .ok ("No deadline set for this issue.", issue)
        else
          match strptime dls with
          | none => .error (.valueError dls)
          | some deadline =>
            let time_left : Int := toSeconds deadline - toSeconds now
            match strptime ai.assigned_at with
            | none => .error (.valueError ai.assigned_at)
            | some assigned_time =>
              let rd := relativedeltaOf now assigned_time
              let issue1 := { issue with assigned_days := some rd.days }
              let tlDays : Int := time_left.fdiv 86400
              let tlSeconds : Int := time_left.fmod 86400
              if 0 < tlDays then
                .ok (toString tlDays ++ " days remaining", issue1)
              else if 0 < tlSeconds then
                let hours : Int := tlSeconds / 3600
                let minutes : Int := tlSeconds % 3600 / 60
                .ok (toString hours ++ " hours " ++ toString minutes ++ " minutes remaining", issue1)
              else
                .ok ("Deadline has passed.", issue1)

/-! ## JSON-level model of the correlator

The typed payloads above (`Fetch`, `Issue`, `Event`, `PullRequest`) decode
the upstream bodies into the well-formed shapes the code expects, which is
adequate for claims about behaviour on fetched data but cannot express
what the code does on an arbitrary decoded body.  The definitions below
re-translate the same source functions over raw JSON values, with the
Python dynamic-type errors made explicit: `.get` on a non-dictionary and
iteration of a non-iterable raise `AttributeError`/`TypeError`, which the
`except requests.exceptions.RequestException` clauses do not catch, and
`datetime.strptime` raises `TypeError` on a non-string argument and
`ValueError` on an unparseable one.  Numbers are modelled as integers (the
payload fields the engine touches are never used arithmetically except
`days`, which the code itself writes as an `int`). -/

/-- A decoded JSON value. -/
inductive JValue where
  | null
  | bool (b : Bool)
  | num (n : Int)
  | str (s : String)
  | arr (items : List JValue)
  | obj (fields : List (String × JValue))

/-- The exceptions the JSON-level engine can raise; none of them is a
`requests.exceptions.RequestException`, so none is caught by the fetch
boundaries.  The argument records the access or operation that failed (the
real Python messages differ in wording). -/
inductive PyExc where
  | valueError (msg : String)
  | attributeError (msg : String)
  | typeError (msg : String)
deriving DecidableEq, Repr

/-- Outcome of one HTTP fetch at the JSON level: a 2xx response whose body
decoded (to an arbitrary JSON value), or one of the transport failures,
each raised as a `RequestException` and caught by the fetchers. -/
inductive JFetch where
  | ok (body : JValue)
  | timeout
  | connectionRefused
  | httpStatus (status : Nat)
  | malformedJson

/-- First binding of `key` in a decoded object, or the default
(`dict.get`); decoded JSON objects have unique keys, so first-match and
Python's lookup agree. -/
def JValue.lookupD (fields : List (String × JValue)) (key : String)
    (default : JValue) : JValue :=
  match fields.find? (fun kv => kv.1 == key) with
  | some kv => kv.2
  | none => default

/-- Python `value.get(key, default)`: on a dictionary the binding or the
default, on anything else an `AttributeError` (no `get` attribute). -/
def JValue.get (v : JValue) (key : String) (default : JValue) : Except PyExc JValue :=
  match v with
  | .obj fields => .ok (JValue.lookupD fields key default)
  | _ => .error (.attributeError key)

/-- Python `value[key] = item`: replaces the binding in place or appends a
new one. -/
def setFields (fields : List (String × JValue)) (key : String) (val : JValue) :
    List (String × JValue) :=
  match fields with
  | [] => [(key, val)]
  | kv :: rest =>
    if kv.1 == key then (key, val) :: rest else kv :: setFields rest key val

/-- Python item assignment: only dictionaries support it; anything else
raises a `TypeError`. -/
def JValue.setItem (v : JValue) (key : String) (val : JValue) : Except PyExc JValue :=
  match v with
  | .obj fields => .ok (.obj (setFields fields key val))
  | _ => .error (.typeError key)

/-- Python truthiness of a JSON value. -/
def JValue.isTruthy : JValue → Bool
  | .null => false
  | .bool b => b
  | .num n => n != 0
  | .str s => s ≠ ""
  | .arr items => !items.isEmpty
  | .obj fields => !fields.isEmpty

/-- Python `for x in value`: arrays yield their items, dictionaries their
keys, strings their one-character substrings; `None`, booleans and numbers
raise `TypeError`. -/
def JValue.iterate : JValue → Except PyExc (List JValue)
  | .arr items => .ok items
  | .obj fields => .ok (fields.map (fun kv => JValue.str kv.1))
  | .str s => .ok (s.data.map (fun c => JValue.str (String.mk [c])))
  | _ => .error (.typeError ("iter"))

mutual
/-- Python `==` between JSON values: equality within a scalar type,
`True == 1` / `False == 0` across booleans and numbers, structural
equality for arrays and objects (Python dict equality is additionally
key-order-insensitive; decoded objects with unique keys in decode order
make the two agree on everything the engine compares), `False` across
other type pairs — never an exception. -/
def JValue.pyEq : JValue → JValue → Bool
  | JValue.null, JValue.null => true
  | JValue.bool a, JValue.bool b => a == b
  | JValue.bool a, JValue.num n => (if a then (1 : Int) else 0) == n
  | JValue.num n, JValue.bool b => n == (if b then (1 : Int) else 0)
  | JValue.num a, JValue.num b => a == b
  | JValue.str a, JValue.str b => a == b
  | JValue.arr a, JValue.arr b => JValue.pyEqList a b
  | JValue.obj a, JValue.obj b => JValue.pyEqObjs a b
  | _, _ => false

/-- Elementwise Python `==` on arrays. -/
def JValue.pyEqList : List JValue → List JValue → Bool
  | [], [] => true
  | a :: as1, b :: bs => JValue.pyEq a b && JValue.pyEqList as1 bs
  | _, _ => false

/-- Pairwise Python `==` on object bindings. -/
def JValue.pyEqObjs : List (String × JValue) → List (String × JValue) → Bool
  | [], [] => true
  | (k1, v1) :: as1, (k2, v2) :: bs =>
    k1 == k2 && JValue.pyEq v1 v2 && JValue.pyEqObjs as1 bs
  | _, _ => false
end

/-- Python `value >= n` for an integer `n`: numbers compare, booleans
coerce to 0/1, every other type raises `TypeError`. -/
def JValue.pyGeInt (v : JValue) (n : Int) : Except PyExc Bool :=
  match v with
  | .num m => .ok (decide (n ≤ m))
  | .bool b => .ok (decide (n ≤ if b then (1 : Int) else 0))
  | _ => .error (.typeError ("ge"))

/-- The filter lambda of `get_all_open_and_assigned_issues`, with Python's
short-circuit `and`: each `.get` raises `AttributeError` when the element
is not a dictionary. -/
def jfilter_issue (issue : JValue) : Except PyExc Bool := do
  let st ← issue.get ("state") JValue.null
  if st.pyEq (.str ("open")) then do
    let asg ← issue.get ("assignee") JValue.null
    if asg.isTruthy then do
      let dr ← issue.get ("draft") JValue.null
      if dr.isTruthy then pure false
      else do
        let pr ← issue.get ("pull_request") JValue.null
        pure (!pr.isTruthy)
    else pure false
  else pure false

/-- `list(filter(...))` over the decoded issues, evaluating the lambda in
order; the first raising element aborts the whole list. -/
def jfilterIssues : List JValue → Except PyExc (List JValue)
  | [] => .ok []
  | issue :: rest => do
    let keep ← jfilter_issue issue
    let rest1 ← jfilterIssues rest
    pure (if keep then issue :: rest1 else rest1)

/-- `get_all_open_and_assigned_issues` over a raw body: a transport
failure is caught and yields `[]`; on a 2xx body the code iterates and
filters it, and any `AttributeError`/`TypeError` escapes the fetcher. -/
def jget_all_open_and_assigned_issues (resp : JFetch) : Except PyExc (List JValue) :=
  match resp with
  | .ok body => do
    let items ← body.iterate
    jfilterIssues items
  | _ => .ok []

/-- `get_all_open_pull_requests` over a raw body: the decoded body is
returned unchanged (whatever JSON value it is); transport failures yield
`[]`. -/
def jget_all_open_pull_requests (resp : JFetch) : JValue :=
  match resp with
  | .ok body => body
  | _ => .arr []

/-- The reconstructed assignment dictionary at the JSON level: the values
written for the last `"assigned"` event (each an arbitrary JSON value). -/
structure JAssignmentInfo where
  assignee : JValue
  assigned_at : JValue

/-- `dict(assignment_info)`: empty, or both keys in insertion order. -/
def assignmentDict : Option JAssignmentInfo → JValue
  | none => .obj []
  | some ai => .obj [(("assignee"), ai.assignee), (("assigned_at"), ai.assigned_at)]

/-- The event loop of `check_issue_assignment_events`: for each event
whose `"event"` value equals `"assigned"`, read
`event.get("assignee", {}).get("login", "")` (raising `AttributeError`
when the assignee value is present but not a dictionary, e.g. `null`) and
`event.get("created_at", "")`, overwriting the accumulator. -/
def jprocess_events (events : List JValue) (acc : Option JAssignmentInfo) :
    Except PyExc (Option JAssignmentInfo) :=
  match events with
  | [] => .ok acc
  | ev :: rest => do
    let kind ← ev.get ("event") JValue.null
    if kind.pyEq (.str ("assigned")) then do
      let asg ← ev.get ("assignee") (.obj [])
      let login ← asg.get ("login") (.str (""))
      let created ← ev.get ("created_at") (.str (""))
      jprocess_events rest (some ⟨login, created⟩)
    else
      jprocess_events rest acc

/-- `check_issue_assignment_events` over raw JSON: read the events URL
value from the issue, fetch it (a transport failure is caught and yields
the empty dictionary), iterate the decoded body and fold the events;
`AttributeError`/`TypeError` raised inside the `try` block escape because
only `RequestException` is caught. -/
def jcheck_issue_assignment_events (jevents : JValue → JFetch) (issue : JValue) :
    Except PyExc (Option JAssignmentInfo) := do
  let events_url ← issue.get ("events_url") (.str (""))
  match jevents events_url with
  | .ok body => do
    let events ← body.iterate
    jprocess_events events none
  | _ => .ok none

/-- One iteration of the correlator's annotation loop over raw JSON:
write `"assignment_info"`, read back the `"assigned_at"` value, and write
`"days"`; a truthy non-string timestamp raises `TypeError` from
`datetime.strptime`, an unparseable string raises `ValueError`. -/
def jannotate_issue (jevents : JValue → JFetch) (now : DateTime) (issue : JValue) :
    Except PyExc JValue := do
  let info ← jcheck_issue_assignment_events jevents issue
  let issue1 ← issue.setItem ("assignment_info") (assignmentDict info)
  let infoDict ← issue1.get ("assignment_info") (.obj [])
  let assigned_at ← infoDict.get ("assigned_at") JValue.null
  if assigned_at.isTruthy then
    match assigned_at with
    | .str s =>
      match strptime s with
      | none => .error (.valueError s)
      | some d =>
        let rd := relativedeltaOf now d
        issue1.setItem ("days") (.num (if rd.isTruthy then rd.days else 0))
    | _ => .error (.typeError ("strptime"))
  else
    issue1.setItem ("days") (.num 0)

/-- The correlator's first loop at the JSON level. -/
def jannotate_issues (jevents : JValue → JFetch) (now : DateTime) :
    List JValue → Except PyExc (List JValue)
  | [] => .ok []
  | issue :: rest => do
    let issue1 ← jannotate_issue jevents now issue
    let rest1 ← jannotate_issues jevents now rest
    pure (issue1 :: rest1)

/-- The author-list comprehension over the decoded pull requests: each
element's `pull_request.get("user", dict()).get("login")`, kept when
truthy; raises `AttributeError` when an element or a present `"user"`
value is not a dictionary. -/
def jpull_requests_users : List JValue → Except PyExc (List JValue)
  | [] => .ok []
  | pr :: rest => do
    let user ← pr.get ("user") (.obj [])
    let login ← user.get ("login") JValue.null
    let rest1 ← jpull_requests_users rest
    pure (if login.isTruthy then login :: rest1 else rest1)

/-- The correlator's final loop at the JSON level, with Python's
short-circuit `and`: `issue.get("days", 0) >= 1` (a `TypeError` for a
non-numeric value) and, only when that holds,
`issue.get("assignee", dict()).get("login") not in pull_requests_users`
(an `AttributeError` when the assignee value is truthy but not a
dictionary). -/
def jselect_noncompliant (issues : List JValue) (users : List JValue) :
    Except PyExc (List JValue) :=
  match issues with
  | [] => .ok []
  | issue :: rest => do
    let days ← issue.get ("days") (.num 0)
    let ge1 ← days.pyGeInt 1
    if ge1 then do
      let asg ← issue.get ("assignee") (.obj [])
      let login ← asg.get ("login") JValue.null
      let rest1 ← jselect_noncompliant rest users
      pure (if users.any (fun u => login.pyEq u) then rest1 else issue :: rest1)
    else
      jselect_noncompliant rest users

/-- `get_issues_without_pull_requests` over raw JSON bodies: fetch and
filter the issues, annotate them, decode and iterate the pull requests,
collect the author logins, and select the non-compliant issues; every
uncaught exception of the stages propagates out. -/
def jget_issues_without_pull_requests (issuesResp : JFetch)
    (jevents : JValue → JFetch) (pullsResp : JFetch) (now : DateTime) :
    Except PyExc (List JValue) := do
  let issues ← jget_all_open_and_assigned_issues issuesResp
  let annotated ← jannotate_issues jevents now issues
  let pulls := jget_all_open_pull_requests pullsResp
  let prs ← pulls.iterate
  let users ← jpull_requests_users prs
  jselect_noncompliant annotated users

/-! ## Specification-side definitions -/

/-- Modelled from the spec: the "whole-day difference between the current
time and the assignment timestamp" — the number of complete days in the
difference `now - assigned` (the `days` of the Python `timedelta`
`now - assigned`, i.e. the floor of the difference in seconds over 86400).
Used only to compare the specified elapsed-days value with the one the
code computes. -/
def whole_day_difference (now assigned : DateTime) : Int :=
  (toSeconds now - toSeconds assigned).fdiv 86400

/-- The last event of the sequence whose kind is `"assigned"`. -/
def last_assigned (events : List Event) : Option Event :=
  (events.filter (fun e => e.kind == some ("assigned"))).getLast?

/-- The assignee login of the issue (possibly absent) is not a member of
the open-pull-request author list. -/
def assigneeLoginFree (issue : Issue) (users : List String) : Prop :=
  ∀ login, issue.assignee.bind (fun a => a.login) = some login → login ∉ users

/-- The JSON value is a dictionary. -/
def IsObj (v : JValue) : Prop := ∃ fields, v = JValue.obj fields

/-- Reading `key` from the value with an empty-dictionary default succeeds
and yields a dictionary: the value is a dictionary whose `key` binding,
when present, is itself a dictionary. -/
def ObjValued (v : JValue) (key : String) : Prop :=
  ∃ fields, JValue.get v key (.obj []) = .ok (.obj fields)

/-- The `"days"` binding of the value is an integer (as the annotation
loop always writes it). -/
def DaysNum (v : JValue) : Prop :=
  ∃ n : Int, JValue.get v ("days") (.num 0) = .ok (.num n)

/-- A reconstructed assignment-timestamp value the elapsed-days
computation accepts: falsy (absent or empty), or a string that parses. -/
def GoodAssignedAt (v : JValue) : Prop :=
  v.isTruthy = false ∨ ∃ s d, v = JValue.str s ∧ strptime s = some d

/-- `aug` is `orig` with the keys `assignment_info` and `days` added and
every original field unchanged. -/
def augments_only (orig aug : Issue) : Prop :=
  aug.title = orig.title ∧ aug.state = orig.state ∧ aug.assignee = orig.assignee ∧
  aug.draft = orig.draft ∧ aug.pull_request = orig.pull_request ∧
  aug.events_url = orig.events_url ∧ aug.due_on = orig.due_on ∧
  aug.assigned_days = orig.assigned_days ∧
  aug.assignment_info.isSome = true ∧ aug.days.isSome = true

/-! ## Concrete scenarios used by counterexamples and witnesses -/

/-- An open issue assigned to `alice`, not a draft, not a pull request,
with no deadline. -/
def sampleIssue : Issue :=
  { title := "issue-1", state := some ("open"), assignee := some ⟨some ("alice")⟩,
    draft := false, pull_request := false, events_url := "repo/issues/1/events",
    due_on := none }

/-- Events feed: `alice` was assigned three days before `sampleNow`. -/
def sampleEvents : String → Fetch (List Event) :=
  fun _ => .ok [⟨some ("assigned"), some ("alice"), some ("2026-10-09T00:00:00Z")⟩]

/-- The current time of the sample correlation pass. -/
def sampleNow : DateTime := ⟨2026, 10, 12, 0, 0, 0⟩

/-- `sampleIssue` after the correlator's annotation loop under
`sampleEvents` and `sampleNow`: three elapsed days. -/
def sampleAnnIssue : Issue :=
  { sampleIssue with
    assignment_info := some (some ⟨"alice", "2026-10-09T00:00:00Z"⟩),
    days := some 3 }

/-- Events feed for the C2 counterexample: assignment exactly two calendar
months (61 days) before `sampleNow`. -/
def cexEvents : String → Fetch (List Event) :=
  fun _ => .ok [⟨some ("assigned"), some ("alice"), some ("2026-08-12T00:00:00Z")⟩]

/-- The parsed assignment timestamp of `cexEvents`. -/
def cexAssigned : DateTime := ⟨2026, 8, 12, 0, 0, 0⟩

/-- `sampleIssue` annotated under `cexEvents`: the recorded elapsed days
are 0 (two whole months leave no leftover days). -/
def cexAnnIssue : Issue :=
  { sampleIssue with
    assignment_info := some (some ⟨"alice", "2026-08-12T00:00:00Z"⟩),
    days := some 0 }

/-- Events feed whose assignment timestamp equals `sampleNow`. -/
def events3 : String → Fetch (List Event) :=
  fun _ => .ok [⟨some ("assigned"), some ("alice"), some ("2026-10-12T00:00:00Z")⟩]

/-- `sampleIssue` annotated under `events3`: zero elapsed days. -/
def issue3Ann : Issue :=
  { sampleIssue with
    assignment_info := some (some ⟨"alice", "2026-10-12T00:00:00Z"⟩),
    days := some 0 }

/-- A well-shaped decoded issue object: open, assigned to `alice` (an
object assignee), with an events URL. -/
def jIssue1 : JValue :=
  .obj [(("title"), .str ("issue-1")), (("state"), .str ("open")),
        (("assignee"), .obj [(("login"), .str ("alice"))]),
        (("events_url"), .str ("repo/issues/1/events"))]

/-- Well-shaped events feed: one assigned event with an object assignee
and a parseable timestamp three days before `sampleNow`. -/
def jEvents1 : JValue → JFetch :=
  fun _ => .ok (.arr [.obj [(("event"), .str ("assigned")),
    (("assignee"), .obj [(("login"), .str ("alice"))]),
    (("created_at"), .str ("2026-10-09T00:00:00Z"))]])

/-- Events feed whose assigned event carries `"assignee": null` — the
chained `.get("login", "")` then raises `AttributeError`. -/
def jEventsNullAssignee : JValue → JFetch :=
  fun _ => .ok (.arr [.obj [(("event"), .str ("assigned")),
    (("assignee"), JValue.null),
    (("created_at"), .str ("2026-10-09T00:00:00Z"))]])

/-- Events feed whose assigned event carries an unparseable timestamp. -/
def jEventsBadTimestamp : JValue → JFetch :=
  fun _ => .ok (.arr [.obj [(("event"), .str ("assigned")),
    (("assignee"), .obj [(("login"), .str ("alice"))]),
    (("created_at"), .str ("not-a-timestamp"))]])

/-- Events feed for the deadline scenarios: assignment on 2026-10-01. -/
def c4Events : String → Fetch (List Event) :=
  fun _ => .ok [⟨some ("assigned"), some ("alice"), some ("2026-10-01T00:00:00Z")⟩]

/-- Current time of the deadline scenario: 2026-10-12 12:00:00. -/
def c4Now : DateTime := ⟨2026, 10, 12, 12, 0, 0⟩

/-- Issue whose deadline, 2026-10-12 11:00:00, lies one hour in the past
at `c4Now`. -/
def c4Issue : Issue :=
  { sampleIssue with due_on := some ("2026-10-12T11:00:00Z") }

/-- The parsed deadline of `c4Issue`. -/
def c4Deadline : DateTime := ⟨2026, 10, 12, 11, 0, 0⟩

/-- The parsed assignment timestamp of `c4Events`. -/
def c4Assigned : DateTime := ⟨2026, 10, 1, 0, 0, 0⟩

/-! ## Helper lemmas -/

/-- A successful correlation pass is the filter of the successfully
annotated fetched issues by the non-compliance condition. -/
theorem correlator_ok {issuesResp : Fetch (List Issue)}
    {events : String → Fetch (List Event)} {pullsResp : Fetch (List PullRequest)}
    {now : DateTime} {res : List Issue}
    (h : get_issues_without_pull_requests issuesResp events pullsResp now = .ok res) :
    ∃ ann, annotate_issues events now (get_all_open_and_assigned_issues issuesResp) = .ok ann ∧
      res = ann.filter (fun issue =>
        nonCompliant issue (pull_requests_users (get_all_open_pull_requests pullsResp))) := by
  unfold get_issues_without_pull_requests at h
  split at h
  · exact absurd h (by simp)
  · rename_i ann hann
    refine ⟨ann, hann, ?_⟩
    injection h with h
    exact h.symm

/-- Inversion of one annotation step: the output issue is the input issue
with `assignment_info` and `days` written. -/
theorem annotate_issue_ok {events : String → Fetch (List Event)} {now : DateTime}
    {issue issue1 : Issue} (h : annotate_issue events now issue = .ok issue1) :
    ∃ d, compute_days now (check_issue_assignment_events (events issue.events_url)) = .ok d ∧
      issue1 = { issue with
        assignment_info := some (check_issue_assignment_events (events issue.events_url)),
        days := some d } := by
  unfold annotate_issue at h
  simp only [] at h
  split at h
  · exact absurd h (by simp)
  · rename_i d hd
    refine ⟨d, hd, ?_⟩
    injection h with h
    exact h.symm

/-- Inversion of the annotation loop: a successful run annotates the
issues pointwise, in order. -/
theorem annotate_issues_ok {events : String → Fetch (List Event)} {now : DateTime} :
    ∀ {l ys : List Issue}, annotate_issues events now l = .ok ys →
      List.Forall₂ (fun x y => annotate_issue events now x = .ok y) l ys := by
  intro l
  induction l with
  | nil =>
    intro ys h
    unfold annotate_issues at h
    injection h with h
    exact h ▸ .nil
  | cons x rest ih =>
    intro ys h
    unfold annotate_issues at h
    split at h
    · exact absurd h (by simp)
    · rename_i x1 hx
      split at h
      · exact absurd h (by simp)
      · rename_i rest1 hrest
        injection h with h
        exact h ▸ .cons hx (ih hrest)

/-- The annotation loop succeeds when every element annotates
successfully. -/
theorem annotate_issues_total {events : String → Fetch (List Event)} {now : DateTime} :
    ∀ l : List Issue, (∀ x ∈ l, ∃ y, annotate_issue events now x = .ok y) →
      ∃ ys, annotate_issues events now l = .ok ys := by
  intro l
  induction l with
  | nil => exact fun _ => ⟨[], rfl⟩
  | cons x rest ih =>
    intro h
    obtain ⟨y, hy⟩ := h x (List.mem_cons_self x rest)
    obtain ⟨ys, hys⟩ := ih (fun z hz => h z (List.mem_cons_of_mem x hz))
    exact ⟨y :: ys, by unfold annotate_issues; rw [hy, hys]⟩

/-- Membership on the right of a `Forall₂` comes from a related member on
the left. -/
theorem forall₂_mem_right {α β : Type} {R : α → β → Prop} :
    ∀ {l : List α} {ys : List β}, List.Forall₂ R l ys →
      ∀ y ∈ ys, ∃ x ∈ l, R x y := by
  intro l ys h
  induction h with
  | nil => intro y hy; cases hy
  | @cons a b l1 l2 hR _ ih =>
    intro y hy
    rcases List.mem_cons.mp hy with h1 | h2
    · exact ⟨a, List.mem_cons_self a l1, h1 ▸ hR⟩
    · obtain ⟨x, hx, hRx⟩ := ih y h2
      exact ⟨x, List.mem_cons_of_mem a hx, hRx⟩

/-- The adjustment loop stops immediately when the comparison already
fails. -/
theorem rdAdjust_stop {fuel : Nat} {dt1 dt2 : DateTime} {months incr : Int}
    {cmp : DateTime → DateTime → Bool}
    (h : cmp dt1 (addMonths dt2 months) = false) :
    rdAdjust fuel dt1 dt2 months incr cmp = months := by
  cases fuel with
  | zero => rfl
  | succ n => unfold rdAdjust; rw [h]; rfl

/-- Python `datetime` comparison is irreflexive. -/
theorem dtLt_irrefl {d : DateTime} : dtLt d d = false := by
  simp [dtLt]

/-- Adding zero months to a valid date is the identity. -/
theorem addMonths_zero {d : DateTime} (h1 : d.day ≤ daysInMonth d.year d.month) :
    addMonths d 0 = d := by
  simp [addMonths, min_eq_right h1]

/-- The `relativedelta` between a valid date and itself is zero. -/
theorem relativedeltaOf_self {d : DateTime} (h1 : d.day ≤ daysInMonth d.year d.month) :
    relativedeltaOf d d = ⟨0, 0⟩ := by
  have hm0 : (d.year - d.year) * 12 + ((d.month : Int) - (d.month : Int)) = 0 := by ring
  unfold relativedeltaOf
  rw [dtLt_irrefl]
  simp only [Bool.false_eq_true, if_false, hm0]
  rw [rdAdjust_stop (by rw [addMonths_zero h1]; exact dtLt_irrefl), addMonths_zero h1]
  simp

/-- A falsy (all-zero) `relativedelta` has a zero `days` attribute, so the
guarded `days if time_delta else 0` always equals the `days` attribute. -/
theorem rd_days_guard (rd : Relativedelta) :
    (if rd.isTruthy then rd.days else 0) = rd.days := by
  by_cases h : rd.isTruthy = true
  · rw [if_pos h]
  · rw [if_neg h]
    have h2 : rd.totalSeconds = 0 := by
      unfold Relativedelta.isTruthy at h
      simp only [Bool.or_eq_true, bne_iff_ne, ne_eq, not_or, not_not] at h
      · simpa using h.2
    unfold Relativedelta.days
    rw [h2]
    simp

/-- A date produced by the timestamp parser has a valid day and month. -/
theorem strptime_valid {s : String} {d : DateTime} (h : strptime s = some d) :
    1 ≤ d.month ∧ d.month ≤ 12 ∧ 1 ≤ d.day ∧ d.day ≤ daysInMonth d.year d.month := by
  unfold strptime at h
  split at h
  · split_ifs at h
    · split at h
      · rename_i yr mo da hh mm ss _ _ _ _ _ _
        unfold mkValidDateTime at h
        split_ifs at h with hv
        injection h with h
        subst h
        exact ⟨hv.2.2.1, hv.2.2.2.1, hv.2.2.2.2.1, hv.2.2.2.2.2.1⟩
      · exact absurd h (by simp)
  · exact absurd h (by simp)

/-- The empty(-string) timestamp never parses. -/
theorem strptime_empty : strptime ("") = none := rfl

/-- The fold of the reconstructor keeps the value of the last `"assigned"`
event, falling back to the accumulator. -/
theorem foldl_last_assigned (l : List Event) :
    ∀ acc : Option AssignmentInfo,
      l.foldl (fun acc event =>
        if event.kind == some ("assigned") then
          some ⟨event.assigneeLogin.getD (""), event.created_at.getD ("")⟩
        else acc) acc =
      match (l.filter (fun e => e.kind == some ("assigned"))).getLast? with
      | some e => some ⟨e.assigneeLogin.getD (""), e.created_at.getD ("")⟩
      | none => acc := by
  induction l with
  | nil => intro acc; rfl
  | cons e rest ih =>
    intro acc
    rw [List.foldl_cons, List.filter_cons]
    by_cases hk : (e.kind == some ("assigned")) = true
    · rw [if_pos hk, if_pos hk, ih, List.getLast?_cons]
      cases hf : (rest.filter (fun e => e.kind == some ("assigned"))).getLast? <;> simp [hf]
    · rw [if_neg hk, if_neg hk, ih]

/-- Unfolding equation of the elapsed-days computation on a non-empty
assignment dictionary. -/
theorem compute_days_some (now : DateTime) (ai : AssignmentInfo) :
    compute_days now (some ai) =
      if ai.assigned_at = "" then .ok 0
      else
        match strptime ai.assigned_at with
        | none => .error (.valueError ai.assigned_at)
        | some d => .ok (if (relativedeltaOf now d).isTruthy
            then (relativedeltaOf now d).days else 0) := rfl

/-- Unfolding equation of one annotation step. -/
theorem annotate_issue_eq (events : String → Fetch (List Event)) (now : DateTime)
    (issue : Issue) :
    annotate_issue events now issue =
      match compute_days now (check_issue_assignment_events (events issue.events_url)) with
      | .error e => .error e
      | .ok d => .ok { issue with
          assignment_info := some (check_issue_assignment_events (events issue.events_url)),
          days := some d } := rfl

/-- Inversion of the elapsed-days computation: a successful result is 0
for an unknown or empty assignment timestamp, and the `relativedelta` day
component for a parseable one. -/
theorem compute_days_ok {now : DateTime} {info : Option AssignmentInfo} {dv : Int}
    (h : compute_days now info = .ok dv) :
    (info = none ∧ dv = 0) ∨
    (∃ ai, info = some ai ∧ ai.assigned_at = "" ∧ dv = 0) ∨
    (∃ ai d, info = some ai ∧ ai.assigned_at ≠ "" ∧ strptime ai.assigned_at = some d ∧
      dv = (relativedeltaOf now d).days) := by
  cases info with
  | none =>
    have h2 : (Except.ok 0 : Except PyError Int) = Except.ok dv := h
    left
    refine ⟨rfl, ?_⟩
    injection h2 with h2
    exact h2.symm
  | some ai =>
    have h2 : (if ai.assigned_at = "" then (Except.ok 0 : Except PyError Int)
        else match strptime ai.assigned_at with
          | none => Except.error (PyError.valueError ai.assigned_at)
          | some d => Except.ok
              (if (relativedeltaOf now d).isTruthy then (relativedeltaOf now d).days else 0)) =
        Except.ok dv := h
    by_cases hemp : ai.assigned_at = ""
    · rw [if_pos hemp] at h2
      right; left
      refine ⟨ai, rfl, hemp, ?_⟩
      injection h2 with h2
      exact h2.symm
    · rw [if_neg hemp] at h2
      cases hp : strptime ai.assigned_at with
      | none => rw [hp] at h2; exact absurd h2 (by simp)
      | some d =>
        rw [hp] at h2
        right; right
        refine ⟨ai, d, rfl, hemp, hp, ?_⟩
        injection h2 with h2
        rw [← h2]
        exact rd_days_guard (relativedeltaOf now d)

/-- The non-compliance condition of the correlator's filter, as a
proposition. -/
theorem nonCompliant_iff {issue : Issue} {users : List String} :
    nonCompliant issue users = true ↔
      1 ≤ issue.days.getD 0 ∧ assigneeLoginFree issue users := by
  unfold nonCompliant assigneeLoginFree
  cases h : issue.assignee.bind (fun a => a.login) with
  | none => simp
  | some l => simp

/-- `Except` bind on a success reduces to the continuation. -/
theorem except_bind_ok {α β : Type} (a : α) (f : α → Except PyExc β) :
    (Except.ok a >>= f) = f a := rfl

/-- `.get` on a dictionary always succeeds with the looked-up binding. -/
theorem jget_obj (fields : List (String × JValue)) (key : String) (d : JValue) :
    JValue.get (.obj fields) key d = .ok (JValue.lookupD fields key d) := rfl

/-- Lookup after writing the same key yields the written value. -/
theorem lookupD_set_same (fields : List (String × JValue)) (key : String)
    (v d : JValue) : JValue.lookupD (setFields fields key v) key d = v := by
  induction fields with
  | nil => simp [setFields, JValue.lookupD, List.find?]
  | cons kv rest ih =>
    simp only [setFields]
    by_cases h : (kv.1 == key) = true
    · rw [if_pos h]
      simp [JValue.lookupD, List.find?]
    · rw [if_neg h]
      simp only [JValue.lookupD, List.find?, h]
      exact ih

/-- Lookup of a different key is unchanged by a write. -/
theorem lookupD_set_other (fields : List (String × JValue)) {key key2 : String}
    (v d : JValue) (h : key2 ≠ key) :
    JValue.lookupD (setFields fields key2 v) key d = JValue.lookupD fields key d := by
  have hbk : (key2 == key) = false := by simpa using h
  induction fields with
  | nil => simp [setFields, JValue.lookupD, List.find?, hbk]
  | cons kv rest ih =>
    simp only [setFields]
    by_cases hk : (kv.1 == key2) = true
    · rw [if_pos hk]
      have hkv : (kv.1 == key) = false := by
        have : kv.1 = key2 := by simpa using hk
        simpa [this] using h
      simp [JValue.lookupD, List.find?, hbk, hkv]
    · rw [if_neg hk]
      by_cases hkey : (kv.1 == key) = true
      · simp [JValue.lookupD, List.find?, hkey]
      · simp only [JValue.lookupD, List.find?, hkey]
        exact ih

/-- Lookup of `"assigned_at"` in a reconstructed assignment dictionary. -/
theorem lookupD_assignmentDict (x y d : JValue) :
    JValue.lookupD [(("assignee"), x), (("assigned_at"), y)] ("assigned_at") d = y := rfl

/-- The filter lambda never raises on a dictionary. -/
theorem jfilter_issue_total (fields : List (String × JValue)) :
    ∃ b, jfilter_issue (.obj fields) = .ok b := by
  unfold jfilter_issue
  simp only [jget_obj, except_bind_ok]
  split_ifs <;> exact ⟨_, rfl⟩

/-- Filtering a list of dictionaries never raises, and keeps only
elements of the list. -/
theorem jfilterIssues_total {items : List JValue}
    (h : ∀ item ∈ items, IsObj item) :
    ∃ kept, jfilterIssues items = .ok kept ∧ ∀ x ∈ kept, x ∈ items := by
  induction items with
  | nil => exact ⟨[], rfl, fun x hx => absurd hx (List.not_mem_nil x)⟩
  | cons y rest ih =>
    obtain ⟨fy, hfy⟩ := h y (List.mem_cons_self y rest)
    obtain ⟨kept, hkept, hsub⟩ := ih (fun z hz => h z (List.mem_cons_of_mem y hz))
    obtain ⟨b, hb⟩ := jfilter_issue_total fy
    rw [← hfy] at hb
    refine ⟨if b then y :: kept else kept, ?_, ?_⟩
    · simp only [jfilterIssues, hb, except_bind_ok, hkept]
      rfl
    · intro x hx
      cases b with
      | true =>
        rw [if_pos rfl] at hx
        rcases List.mem_cons.mp hx with h1 | h2
        · exact h1 ▸ List.mem_cons_self y rest
        · exact List.mem_cons_of_mem y (hsub x h2)
      | false =>
        rw [if_neg (by simp)] at hx
        exact List.mem_cons_of_mem y (hsub x hx)

/-- The issues fetcher never raises when a 2xx body is an array of
dictionaries, and its output consists of elements of that array. -/
theorem jissues_fetch_total {resp : JFetch} {P : JValue → Prop}
    (h : ∀ body, resp = JFetch.ok body →
      ∃ items, body = JValue.arr items ∧ ∀ item ∈ items, IsObj item ∧ P item) :
    ∃ issues, jget_all_open_and_assigned_issues resp = .ok issues ∧
      ∀ x ∈ issues, IsObj x ∧ P x := by
  cases resp with
  | ok body =>
    obtain ⟨items, rfl, hitems⟩ := h body rfl
    obtain ⟨kept, hkept, hsub⟩ := jfilterIssues_total (fun i hi => (hitems i hi).1)
    refine ⟨kept, ?_, fun x hx => hitems x (hsub x hx)⟩
    simp only [jget_all_open_and_assigned_issues, JValue.iterate, except_bind_ok, hkept]
  | timeout => exact ⟨[], rfl, fun x hx => absurd hx (List.not_mem_nil x)⟩
  | connectionRefused => exact ⟨[], rfl, fun x hx => absurd hx (List.not_mem_nil x)⟩
  | httpStatus s => exact ⟨[], rfl, fun x hx => absurd hx (List.not_mem_nil x)⟩
  | malformedJson => exact ⟨[], rfl, fun x hx => absurd hx (List.not_mem_nil x)⟩

/-- One annotation step never raises on a dictionary issue whose
reconstruction succeeded with an acceptable timestamp; the output is a
dictionary with an integer `"days"` binding and the assignee binding of
the input. -/
theorem jannotate_issue_total (jevents : JValue → JFetch) (now : DateTime)
    {issue : JValue} {info : Option JAssignmentInfo}
    (hchk : jcheck_issue_assignment_events jevents issue = .ok info)
    (hgood : ∀ ai, info = some ai → GoodAssignedAt ai.assigned_at)
    (hasg : ObjValued issue ("assignee")) :
    ∃ out, jannotate_issue jevents now issue = .ok out ∧
      DaysNum out ∧ ObjValued out ("assignee") := by
  obtain ⟨af, haf⟩ := hasg
  have hobj : IsObj issue := by
    cases issue <;> first
      | exact ⟨_, rfl⟩
      | exact absurd haf (by simp [JValue.get])
  obtain ⟨fields, rfl⟩ := hobj
  rw [jget_obj] at haf
  injection haf with haf
  have hfin : ∀ n : Int,
      DaysNum (JValue.obj (setFields
        (setFields fields ("assignment_info") (assignmentDict info)) ("days") (.num n))) ∧
      ObjValued (JValue.obj (setFields
        (setFields fields ("assignment_info") (assignmentDict info)) ("days") (.num n)))
        ("assignee") := by
    intro n
    constructor
    · exact ⟨n, by rw [jget_obj, lookupD_set_same]⟩
    · refine ⟨af, ?_⟩
      rw [jget_obj,
        lookupD_set_other _ _ _ (show ("days" : String) ≠ "assignee" by decide),
        lookupD_set_other _ _ _ (show ("assignment_info" : String) ≠ "assignee" by decide),
        haf]
  cases info with
  | none =>
    refine ⟨_, ?_, hfin 0⟩
    simp only [jannotate_issue, hchk, except_bind_ok, JValue.setItem, jget_obj,
      lookupD_set_same, assignmentDict]
    rfl
  | some ai =>
    rcases hgood ai rfl with hfal | ⟨s, dt, hstr, hdt⟩
    · refine ⟨_, ?_, hfin 0⟩
      simp only [jannotate_issue, hchk, except_bind_ok, JValue.setItem, jget_obj,
        lookupD_set_same, assignmentDict, lookupD_assignmentDict, hfal]
      rfl
    · have hs : s ≠ "" := by
        intro h0
        rw [h0, strptime_empty] at hdt
        exact absurd hdt (by simp)
      have hst : JValue.isTruthy (JValue.str s) = true := by
        simp [JValue.isTruthy, hs]
      refine ⟨_, ?_, hfin (if (relativedeltaOf now dt).isTruthy
        then (relativedeltaOf now dt).days else 0)⟩
      simp only [jannotate_issue, hchk, except_bind_ok, JValue.setItem, jget_obj,
        lookupD_set_same, assignmentDict, lookupD_assignmentDict, hstr, hst, hdt]
      rfl

/-- The annotation loop never raises under the per-issue conditions, and
every output has an integer `"days"` binding and a dictionary assignee. -/
theorem jannotate_issues_total (jevents : JValue → JFetch) (now : DateTime) :
    ∀ {issues : List JValue},
      (∀ issue ∈ issues, ObjValued issue ("assignee") ∧
        ∃ info, jcheck_issue_assignment_events jevents issue = .ok info ∧
          ∀ ai, info = some ai → GoodAssignedAt ai.assigned_at) →
      ∃ outs, jannotate_issues jevents now issues = .ok outs ∧
        ∀ out ∈ outs, DaysNum out ∧ ObjValued out ("assignee") := by
  intro issues
  induction issues with
  | nil => exact fun _ => ⟨[], rfl, fun x hx => absurd hx (List.not_mem_nil x)⟩
  | cons y rest ih =>
    intro h
    obtain ⟨hasg, info, hchk, hgood⟩ := h y (List.mem_cons_self y rest)
    obtain ⟨out, hout, hprops⟩ := jannotate_issue_total jevents now hchk hgood hasg
    obtain ⟨outs, houts, hoprops⟩ := ih (fun z hz => h z (List.mem_cons_of_mem y hz))
    refine ⟨out :: outs, ?_, ?_⟩
    · simp only [jannotate_issues, hout, except_bind_ok, houts]
      rfl
    · intro x hx
      rcases List.mem_cons.mp hx with h1 | h2
      · exact h1 ▸ hprops
      · exact hoprops x h2

/-- The author-list comprehension never raises when each element's user
value (with a dictionary default) is a dictionary. -/
theorem jpull_requests_users_total {prs : List JValue}
    (h : ∀ pr ∈ prs, ObjValued pr ("user")) :
    ∃ users, jpull_requests_users prs = .ok users := by
  induction prs with
  | nil => exact ⟨[], rfl⟩
  | cons pr rest ih =>
    obtain ⟨uf, huf⟩ := h pr (List.mem_cons_self pr rest)
    obtain ⟨users, hus⟩ := ih (fun z hz => h z (List.mem_cons_of_mem pr hz))
    refine ⟨if (JValue.lookupD uf ("login") JValue.null).isTruthy
        then JValue.lookupD uf ("login") JValue.null :: users else users, ?_⟩
    simp only [jpull_requests_users, huf, except_bind_ok, jget_obj, hus]
    rfl

/-- The final selection loop never raises when every issue has an integer
`"days"` binding and a dictionary assignee value. -/
theorem jselect_noncompliant_total {issues : List JValue} (users : List JValue)
    (h : ∀ issue ∈ issues, DaysNum issue ∧ ObjValued issue ("assignee")) :
    ∃ res, jselect_noncompliant issues users = .ok res := by
  induction issues with
  | nil => exact ⟨[], rfl⟩
  | cons y rest ih =>
    obtain ⟨⟨n, hn⟩, af, haf⟩ := h y (List.mem_cons_self y rest)
    obtain ⟨res, hres⟩ := ih (fun z hz => h z (List.mem_cons_of_mem y hz))
    by_cases hge : decide (1 ≤ n) = true
    · refine ⟨if users.any (fun u => (JValue.lookupD af ("login") JValue.null).pyEq u)
          then res else y :: res, ?_⟩
      simp only [jselect_noncompliant, hn, except_bind_ok, JValue.pyGeInt, hge, haf,
        jget_obj, hres]
      rfl
    · have hge2 : decide (1 ≤ n) = false := by simpa using hge
      refine ⟨res, ?_⟩
      simp only [jselect_noncompliant, hn, except_bind_ok, JValue.pyGeInt, hge2, hres]
      rfl

/-! ## Claim theorems -/

/-- Claim C1: in every successful run of
`get_issues_without_pull_requests`, an annotated issue of the fetched
assigned-open set appears in the returned non-compliant list iff its
computed elapsed days are at least 1 and its assignee's login is not among
the author logins of the fetched open pull requests; and every such issue
occurring once among the annotated fetched issues occurs exactly once in
the result. -/
theorem correlator_noncompliant_membership
    (issuesResp : Fetch (List Issue)) (events : String → Fetch (List Event))
    (pullsResp : Fetch (List PullRequest)) (now : DateTime) (res ann : List Issue)
    (hok : get_issues_without_pull_requests issuesResp events pullsResp now = .ok res)
    (hann : annotate_issues events now (get_all_open_and_assigned_issues issuesResp) = .ok ann) :
    (∀ issue ∈ ann,
      (issue ∈ res ↔ 1 ≤ issue.days.getD 0 ∧
        assigneeLoginFree issue (pull_requests_users (get_all_open_pull_requests pullsResp)))) ∧
    (∀ issue ∈ ann, 1 ≤ issue.days.getD 0 →
      assigneeLoginFree issue (pull_requests_users (get_all_open_pull_requests pullsResp)) →
      ann.count issue = 1 → res.count issue = 1) := by
  obtain ⟨ann1, hann1, hres⟩ := correlator_ok hok
  rw [hann1] at hann
  injection hann with hann
  subst hann
  subst hres
  constructor
  · intro issue hmem
    rw [List.mem_filter]
    constructor
    · intro h
      exact nonCompliant_iff.mp h.2
    · intro h
      exact ⟨hmem, nonCompliant_iff.mpr h⟩
  · intro issue _ h1 h2 hcount
    have h3 : List.count issue (List.filter (fun issue =>
        nonCompliant issue (pull_requests_users (get_all_open_pull_requests pullsResp))) ann1) =
        List.count issue ann1 :=
      List.count_filter (nonCompliant_iff.mpr ⟨h1, h2⟩)
    rw [h3, hcount]

/-- Claim C1 witness: in the sample pass, the single annotated issue
(3 elapsed days, `alice` has no open pull request) is in the result, and
the membership criterion evaluates as the claim states. -/
theorem correlator_noncompliant_membership_witness :
    sampleAnnIssue ∈ [sampleAnnIssue] ↔ 1 ≤ sampleAnnIssue.days.getD 0 ∧
      assigneeLoginFree sampleAnnIssue
        (pull_requests_users (get_all_open_pull_requests (Fetch.ok []))) :=
  (correlator_noncompliant_membership (.ok [sampleIssue]) sampleEvents (.ok []) sampleNow
    [sampleAnnIssue] [sampleAnnIssue] (by rfl) (by rfl)).1 sampleAnnIssue
    (List.mem_cons_self sampleAnnIssue [])

/-- Claim C2 counterexample: for an assignment exactly two calendar months
(61 whole days) before the current time, the correlator's annotation loop
records 0 elapsed days, while the whole-day difference between the current
time and the assignment timestamp is 61 — `relativedelta(...).days` is the
day component left over after removing whole months, not the whole-day
difference. -/
theorem elapsed_days_not_whole_day_difference :
    annotate_issues cexEvents sampleNow [sampleIssue] = .ok [cexAnnIssue] ∧
    cexAnnIssue.days = some 0 ∧
    strptime ("2026-08-12T00:00:00Z") = some cexAssigned ∧
    whole_day_difference sampleNow cexAssigned = 61 ∧
    (0 : Int) ≠ 61 :=
  ⟨rfl, rfl, rfl, rfl, by decide⟩

/-- Claim C2 amended: the elapsed-days value the correlator records on an
issue is the `days` component of the `relativedelta` calendar
decomposition of (current time − assignment timestamp) — the whole days
left over after removing whole calendar months — and 0 when the assignment
is unknown or its timestamp is empty. -/
theorem elapsed_days_eq_relativedelta_days
    (issuesResp : Fetch (List Issue)) (events : String → Fetch (List Event))
    (now : DateTime) (ann : List Issue)
    (hann : annotate_issues events now (get_all_open_and_assigned_issues issuesResp) = .ok ann) :
    ∀ issue ∈ ann,
      match check_issue_assignment_events (events issue.events_url) with
      | none => issue.days = some 0
      | some ai =>
        if ai.assigned_at = "" then issue.days = some 0
        else ∃ d, strptime ai.assigned_at = some d ∧
          issue.days = some ((relativedeltaOf now d).days) := by
  intro issue hmem
  obtain ⟨x, _, hx⟩ := forall₂_mem_right (annotate_issues_ok hann) issue hmem
  obtain ⟨dv, hdv, hshape⟩ := annotate_issue_ok hx
  have hurl : issue.events_url = x.events_url := by rw [hshape]
  have hdays : issue.days = some dv := by rw [hshape]
  rw [hurl]
  rcases compute_days_ok hdv with ⟨hinfo, hzero⟩ | ⟨ai, hinfo, hemp, hzero⟩ |
    ⟨ai, d, hinfo, hemp, hp, hval⟩
  · rw [hinfo]
    rw [hdays, hzero]
  · rw [hinfo]
    show if ai.assigned_at = "" then issue.days = some 0
      else ∃ d, strptime ai.assigned_at = some d ∧
        issue.days = some ((relativedeltaOf now d).days)
    rw [if_pos hemp, hdays, hzero]
  · rw [hinfo]
    show if ai.assigned_at = "" then issue.days = some 0
      else ∃ d, strptime ai.assigned_at = some d ∧
        issue.days = some ((relativedeltaOf now d).days)
    rw [if_neg hemp]
    exact ⟨d, hp, by rw [hdays, hval]⟩

/-- Claim C2 amended witness: in the two-month scenario the recorded value
is exactly the `relativedelta` day component of the parsed assignment
timestamp. -/
theorem elapsed_days_eq_relativedelta_days_witness :
    ∃ d, strptime ("2026-08-12T00:00:00Z") = some d ∧
      cexAnnIssue.days = some ((relativedeltaOf sampleNow d).days) := by
  have h := elapsed_days_eq_relativedelta_days (.ok [sampleIssue]) cexEvents sampleNow
    [cexAnnIssue] (by rfl) cexAnnIssue (List.mem_cons_self cexAnnIssue [])
  exact h

/-- Claim C3: in every successful correlation pass, an issue whose
computed elapsed days are 0 is never in the non-compliant result,
regardless of pull-request state; in particular an issue whose assignment
timestamp parses to exactly the current time, and an issue whose
assignment-events fetch returns the empty sequence, are annotated with 0
elapsed days and excluded. -/
theorem zero_elapsed_days_never_noncompliant
    (issuesResp : Fetch (List Issue)) (events : String → Fetch (List Event))
    (pullsResp : Fetch (List PullRequest)) (now : DateTime) (res : List Issue)
    (hok : get_issues_without_pull_requests issuesResp events pullsResp now = .ok res) :
    (∀ issue : Issue, issue.days = some 0 → issue ∉ res) ∧
    (∀ issue issue1 : Issue, ∀ ai : AssignmentInfo,
      annotate_issue events now issue = .ok issue1 →
      check_issue_assignment_events (events issue.events_url) = some ai →
      strptime ai.assigned_at = some now →
      issue1.days = some 0 ∧ issue1 ∉ res) ∧
    (∀ issue issue1 : Issue, events issue.events_url = .ok [] →
      annotate_issue events now issue = .ok issue1 →
      issue1.days = some 0 ∧ issue1 ∉ res) := by
  obtain ⟨ann, _, hres⟩ := correlator_ok hok
  have hexcl : ∀ issue : Issue, issue.days = some 0 → issue ∉ res := by
    intro issue hzero hmem
    rw [hres] at hmem
    have hnc := List.of_mem_filter hmem
    rw [nonCompliant_iff] at hnc
    have h1 := hnc.1
    rw [hzero] at h1
    exact absurd h1 (by decide)
  refine ⟨hexcl, ?_, ?_⟩
  · intro issue issue1 ai hann1 hinfo hparse
    obtain ⟨dv, hdv, hshape⟩ := annotate_issue_ok hann1
    have hzero : dv = 0 := by
      rcases compute_days_ok hdv with ⟨hnone, hz⟩ | ⟨ai2, hsome, _, hz⟩ |
        ⟨ai2, d, hsome, _, hp, hval⟩
      · exact hz
      · exact hz
      · rw [hinfo] at hsome
        injection hsome with hsome
        subst hsome
        rw [hparse] at hp
        injection hp with hp
        subst hp
        have hv := strptime_valid hparse
        rw [hval, relativedeltaOf_self hv.2.2.2]
        rfl
    have hdays : issue1.days = some 0 := by rw [hshape, hzero]
    exact ⟨hdays, hexcl issue1 hdays⟩
  · intro issue issue1 hempty hann1
    obtain ⟨dv, hdv, hshape⟩ := annotate_issue_ok hann1
    rw [hempty] at hdv
    have hnone : check_issue_assignment_events (Fetch.ok ([] : List Event)) =
        (none : Option AssignmentInfo) := rfl
    rw [hnone] at hdv
    have hzero : dv = 0 := by
      rcases compute_days_ok hdv with ⟨_, hz⟩ | ⟨ai2, hsome, _, _⟩ | ⟨ai2, d, hsome, _, _, _⟩
      · exact hz
      · exact absurd hsome (by simp)
      · exact absurd hsome (by simp)
    have hdays : issue1.days = some 0 := by
      rw [hshape, hempty, hnone, hzero]
    exact ⟨hdays, hexcl issue1 hdays⟩

/-- Claim C3 witness: with the assignment timestamp equal to the current
time, the annotated issue has 0 elapsed days and the non-compliant result
of the pass is empty. -/
theorem zero_elapsed_days_never_noncompliant_witness :
    issue3Ann.days = some 0 ∧ issue3Ann ∉ ([] : List Issue) :=
  (zero_elapsed_days_never_noncompliant (.ok [sampleIssue]) events3 (.ok []) sampleNow []
    (by rfl)).2.1 sampleIssue issue3Ann ⟨"alice", "2026-10-12T00:00:00Z"⟩
    (by rfl) (by rfl) (by rfl)

/-- Claim C4 (code bug): the specification and the claim say a zero or
negative `deadline − now` is always reported as "deadline passed", but for
a deadline one hour in the past the code computes `timedelta.days = -1`
(not positive) and `timedelta.seconds = 82800` (the non-negative sub-day
remainder, positive), so it reports "23 hours 0 minutes remaining".  The
"Deadline has passed." branch is reachable only when the difference is an
exact non-positive whole number of days. -/
theorem past_deadline_reported_as_time_remaining :
    strptime ("2026-10-12T11:00:00Z") = some c4Deadline ∧
    toSeconds c4Deadline - toSeconds c4Now < 0 ∧
    get_time_before_deadline c4Events c4Now c4Issue =
      .ok ("23 hours 0 minutes remaining", { c4Issue with assigned_days := some 11 }) :=
  ⟨rfl, by decide, rfl⟩

/-- Claim C5: each fetcher maps every transport failure (timeout,
connection refused, non-2xx status, malformed JSON body — all raised as
`RequestException`s and caught at the fetch boundary) to an empty result;
the reconstructor's fetcher returns the empty dictionary. -/
theorem transport_failure_yields_empty
    (ri : Fetch (List Issue)) (rp : Fetch (List PullRequest)) (re : Fetch (List Event))
    (hi : ri.isFailure = true) (hp : rp.isFailure = true) (he : re.isFailure = true) :
    get_all_open_and_assigned_issues ri = [] ∧
    get_all_open_pull_requests rp = [] ∧
    check_issue_assignment_events re = none := by
  refine ⟨?_, ?_, ?_⟩
  · cases ri <;> simp_all [Fetch.isFailure, get_all_open_and_assigned_issues]
  · cases rp <;> simp_all [Fetch.isFailure, get_all_open_pull_requests]
  · cases re <;> simp_all [Fetch.isFailure, check_issue_assignment_events]

/-- Claim C5 witness: a timeout on the issues fetch, a 500 status on the
pulls fetch and a malformed body on the events fetch each yield the empty
result. -/
theorem transport_failure_yields_empty_witness :
    get_all_open_and_assigned_issues (Fetch.timeout : Fetch (List Issue)) = [] ∧
    get_all_open_pull_requests (Fetch.httpStatus 500 : Fetch (List PullRequest)) = [] ∧
    check_issue_assignment_events (Fetch.malformedJson : Fetch (List Event)) = none :=
  transport_failure_yields_empty Fetch.timeout (Fetch.httpStatus 500) Fetch.malformedJson
    rfl rfl rfl

/-- Claim C6: on a successful events fetch, the reconstructor returns the
assignee login and timestamp of the last `"assigned"` event of the
sequence (later assigned events overwrite earlier ones, with no
correlation against the issue's assignee field), and the empty dictionary
when no `"assigned"` event exists. -/
theorem reconstructor_last_assigned_wins (events : List Event) :
    check_issue_assignment_events (.ok events) =
      (last_assigned events).map
        (fun e => ⟨e.assigneeLogin.getD (""), e.created_at.getD ("")⟩) := by
  have hred : check_issue_assignment_events (.ok events) =
      events.foldl (fun acc event =>
        if event.kind == some ("assigned") then
          some ⟨event.assigneeLogin.getD (""), event.created_at.getD ("")⟩
        else acc) none := rfl
  rw [hred, foldl_last_assigned, last_assigned]
  cases (events.filter (fun e => e.kind == some ("assigned"))).getLast? <;> simp

/-- Claim C7 counterexample: six upstream contents on which the
correlation pass raises an uncaught exception instead of returning a list
— the `except` clauses catch only `RequestException`s.  In order: a 2xx
issues body that is a JSON object (iterating it yields key strings, which
have no `.get`); an assigned event whose `"assignee"` value is `null`
(`None.get` has no `get`); an assigned event whose timestamp does not
parse (`ValueError` from `strptime`); a 2xx pull-requests body that is
`null` (not iterable); a pull request whose `"user"` value is `null`; and
a fetched issue whose truthy `"assignee"` value is a string, which passes
the fetch filter but crashes in the final selection loop. -/
theorem junexpected_content_escapes :
    jget_issues_without_pull_requests (.ok (.obj [(("message"), .str ("Not Found"))]))
        (fun _ => .ok (.arr [])) (.ok (.arr [])) sampleNow =
      .error (.attributeError ("state")) ∧
    jget_issues_without_pull_requests (.ok (.arr [jIssue1])) jEventsNullAssignee
        (.ok (.arr [])) sampleNow = .error (.attributeError ("login")) ∧
    jget_issues_without_pull_requests (.ok (.arr [jIssue1])) jEventsBadTimestamp
        (.ok (.arr [])) sampleNow = .error (.valueError ("not-a-timestamp")) ∧
    jget_issues_without_pull_requests (.ok (.arr [])) (fun _ => .ok (.arr []))
        (.ok JValue.null) sampleNow = .error (.typeError ("iter")) ∧
    jget_issues_without_pull_requests (.ok (.arr [])) (fun _ => .ok (.arr []))
        (.ok (.arr [.obj [(("user"), JValue.null)]])) sampleNow =
      .error (.attributeError ("login")) ∧
    jget_issues_without_pull_requests
        (.ok (.arr [.obj [(("state"), .str ("open")), (("assignee"), .str ("alice")),
          (("events_url"), .str ("u"))]])) jEvents1 (.ok (.arr [])) sampleNow =
      .error (.attributeError ("login")) :=
  ⟨rfl, rfl, rfl, rfl, rfl, rfl⟩

/-- Claim C7 amended: a correlation pass terminates normally and returns a
list for every content of the upstream responses in which (a) a decoded
2xx issues body is an array of dictionaries whose `"assignee"` values,
when present, are dictionaries, (b) a decoded 2xx pull-requests body is an
array whose elements' `"user"` values, when present, are dictionaries, and
(c) each fetched issue's assignment reconstruction completes without
error and its reconstructed timestamp value is falsy (absent or empty) or
a parseable timestamp string; outside these conditions an uncaught
`AttributeError`, `TypeError` or `ValueError` can escape the correlator,
since the fetch boundaries catch only `RequestException`s. -/
theorem jcorrelator_total_on_well_shaped
    (issuesResp : JFetch) (jevents : JValue → JFetch) (pullsResp : JFetch)
    (now : DateTime)
    (hIssues : ∀ body, issuesResp = JFetch.ok body →
      ∃ items, body = JValue.arr items ∧
        ∀ item ∈ items, IsObj item ∧ ObjValued item ("assignee"))
    (hEvents : ∀ issues, jget_all_open_and_assigned_issues issuesResp = .ok issues →
      ∀ issue ∈ issues, ∃ info,
        jcheck_issue_assignment_events jevents issue = .ok info ∧
        ∀ ai, info = some ai → GoodAssignedAt ai.assigned_at)
    (hPulls : ∀ body, pullsResp = JFetch.ok body →
      ∃ prs, body = JValue.arr prs ∧ ∀ pr ∈ prs, ObjValued pr ("user")) :
    ∃ res, jget_issues_without_pull_requests issuesResp jevents pullsResp now = .ok res := by
  obtain ⟨issues, hiss, hprops⟩ := jissues_fetch_total hIssues
  obtain ⟨outs, houts, hoprops⟩ := jannotate_issues_total jevents now
    (fun issue hm => ⟨(hprops issue hm).2, hEvents issues hiss issue hm⟩)
  have hpu : ∃ prs users, (jget_all_open_pull_requests pullsResp).iterate = .ok prs ∧
      jpull_requests_users prs = .ok users := by
    cases hp : pullsResp with
    | ok body =>
      obtain ⟨prs, rfl, hprs⟩ := hPulls body hp
      obtain ⟨users, hus⟩ := jpull_requests_users_total hprs
      exact ⟨prs, users, rfl, hus⟩
    | timeout => exact ⟨[], [], rfl, rfl⟩
    | connectionRefused => exact ⟨[], [], rfl, rfl⟩
    | httpStatus s => exact ⟨[], [], rfl, rfl⟩
    | malformedJson => exact ⟨[], [], rfl, rfl⟩
  obtain ⟨prs, users, hprs, hus⟩ := hpu
  obtain ⟨res, hres⟩ := jselect_noncompliant_total users (fun i hi => hoprops i hi)
  refine ⟨res, ?_⟩
  simp only [jget_issues_without_pull_requests, hiss, except_bind_ok, houts, hprs,
    hus, hres]

/-- Claim C7 amended witness: a well-shaped pass (array-of-objects bodies,
object assignee, parseable timestamp) terminates with a list. -/
theorem jcorrelator_total_on_well_shaped_witness :
    ∃ res, jget_issues_without_pull_requests (.ok (.arr [jIssue1])) jEvents1
      (.ok (.arr [])) sampleNow = .ok res :=
  jcorrelator_total_on_well_shaped (.ok (.arr [jIssue1])) jEvents1 (.ok (.arr []))
    sampleNow
    (by
      intro body hb
      injection hb with hb
      refine ⟨[jIssue1], hb.symm, ?_⟩
      intro item hm
      rw [List.mem_singleton.mp hm]
      exact ⟨⟨_, rfl⟩, ⟨_, rfl⟩⟩)
    (by
      intro issues hiss issue hm
      have hv : Except.ok [jIssue1] = Except.ok issues := hiss
      injection hv with hv
      rw [← hv] at hm
      rw [List.mem_singleton.mp hm]
      refine ⟨some ⟨.str ("alice"), .str ("2026-10-09T00:00:00Z")⟩, rfl, ?_⟩
      intro ai hai
      injection hai with hai
      rw [← hai]
      exact Or.inr ⟨"2026-10-09T00:00:00Z", ⟨2026, 10, 9, 0, 0, 0⟩, rfl, rfl⟩)
    (by
      intro body hb
      injection hb with hb
      exact ⟨[], hb.symm, fun pr hp => absurd hp (List.not_mem_nil pr)⟩)

/-- Claim C8 counterexample: an issue with a reconstructed assignment but
no deadline field returns early from `get_time_before_deadline` with the
no-deadline message, and no elapsed-days value is recorded on the issue. -/
theorem no_deadline_skips_recording :
    check_issue_assignment_events (sampleEvents sampleIssue.events_url) =
      some ⟨"alice", "2026-10-09T00:00:00Z"⟩ ∧
    get_time_before_deadline sampleEvents sampleNow sampleIssue =
      .ok ("No deadline set for this issue.", sampleIssue) ∧
    sampleIssue.assigned_days = none :=
  ⟨rfl, rfl, rfl⟩

/-- Claim C8 amended: for every issue with a reconstructed assignment and
a present, parseable deadline, `get_time_before_deadline` records on the
issue the `relativedelta` day component of (current time − assignment
timestamp) under `assigned_days`, and that value is exactly what the
correlator's elapsed-days computation produces for the same assignment
dictionary and the same current time. -/
theorem deadline_query_records_elapsed_days
    (events : String → Fetch (List Event)) (now : DateTime) (issue : Issue)
    (ai : AssignmentInfo) (d ddl : DateTime) (dls : String)
    (hinfo : check_issue_assignment_events (events issue.events_url) = some ai)
    (hne : ai.assigned_at ≠ "")
    (hd : strptime ai.assigned_at = some d)
    (hdl : issue.due_on = some dls) (hdlne : dls ≠ "")
    (hddl : strptime dls = some ddl) :
    (∃ msg, get_time_before_deadline events now issue =
      .ok (msg, { issue with assigned_days := some ((relativedeltaOf now d).days) })) ∧
    compute_days now (some ai) = .ok ((relativedeltaOf now d).days) := by
  constructor
  · simp only [get_time_before_deadline, hinfo, hdl, hd, hddl, hne, hdlne, if_false,
      ite_false]
    split_ifs <;> exact ⟨_, rfl⟩
  · rw [compute_days_some, if_neg hne, hd]
    show Except.ok (if (relativedeltaOf now d).isTruthy
        then (relativedeltaOf now d).days else 0) =
      Except.ok ((relativedeltaOf now d).days)
    rw [rd_days_guard]

/-- Claim C8 amended witness: in the deadline scenario the issue gets
`assigned_days = 11` recorded, matching the correlator's computation. -/
theorem deadline_query_records_elapsed_days_witness :
    (∃ msg, get_time_before_deadline c4Events c4Now c4Issue =
      .ok (msg, { c4Issue with assigned_days := some ((relativedeltaOf c4Now c4Assigned).days) })) ∧
    compute_days c4Now (some ⟨"alice", "2026-10-01T00:00:00Z"⟩) =
      .ok ((relativedeltaOf c4Now c4Assigned).days) :=
  deadline_query_records_elapsed_days c4Events c4Now c4Issue
    ⟨"alice", "2026-10-01T00:00:00Z"⟩ c4Assigned c4Deadline ("2026-10-12T11:00:00Z")
    rfl (by decide) rfl rfl (by decide) rfl

/-- Claim C9: two invocations of the correlator against identical upstream
responses and the same current time produce identical results. -/
theorem correlator_deterministic
    (issuesResp : Fetch (List Issue)) (events : String → Fetch (List Event))
    (pullsResp : Fetch (List PullRequest)) (now : DateTime)
    (r1 r2 : Except PyError (List Issue))
    (h1 : get_issues_without_pull_requests issuesResp events pullsResp now = r1)
    (h2 : get_issues_without_pull_requests issuesResp events pullsResp now = r2) :
    r1 = r2 := h1.symm.trans h2

/-- Claim C9 witness: two sample invocations agree. -/
theorem correlator_deterministic_witness :
    (Except.ok [sampleAnnIssue] : Except PyError (List Issue)) = Except.ok [sampleAnnIssue] :=
  correlator_deterministic (.ok [sampleIssue]) sampleEvents (.ok []) sampleNow
    (.ok [sampleAnnIssue]) (.ok [sampleAnnIssue]) rfl rfl

/-- Claim C10: the result of a successful correlation pass is a
subsequence (order preserved) of the annotated fetched issue list, and
each annotated issue is the corresponding fetched issue with exactly the
keys `assignment_info` and `days` added and no original field changed. -/
theorem result_subsequence_of_fetched
    (issuesResp : Fetch (List Issue)) (events : String → Fetch (List Event))
    (pullsResp : Fetch (List PullRequest)) (now : DateTime) (res : List Issue)
    (hok : get_issues_without_pull_requests issuesResp events pullsResp now = .ok res) :
    ∃ ann, annotate_issues events now (get_all_open_and_assigned_issues issuesResp) = .ok ann ∧
      List.Sublist res ann ∧
      List.Forall₂ augments_only (get_all_open_and_assigned_issues issuesResp) ann := by
  obtain ⟨ann, hann, hres⟩ := correlator_ok hok
  refine ⟨ann, hann, ?_, ?_⟩
  · rw [hres]
    exact List.filter_sublist ann
  · refine (annotate_issues_ok hann).imp ?_
    intro x y hxy
    obtain ⟨dv, _, hshape⟩ := annotate_issue_ok hxy
    subst hshape
    exact ⟨rfl, rfl, rfl, rfl, rfl, rfl, rfl, rfl, rfl, rfl⟩

/-- Claim C10 witness: the sample pass returns a subsequence of the
annotated fetched issues, which augment the fetched ones by exactly the
two derived keys. -/
theorem result_subsequence_of_fetched_witness :
    ∃ ann, annotate_issues sampleEvents sampleNow
        (get_all_open_and_assigned_issues (.ok [sampleIssue])) = .ok ann ∧
      List.Sublist [sampleAnnIssue] ann ∧
      List.Forall₂ augments_only (get_all_open_and_assigned_issues (.ok [sampleIssue])) ann :=
  result_subsequence_of_fetched (.ok [sampleIssue]) sampleEvents (.ok []) sampleNow
    [sampleAnnIssue] rfl

end Tracker
